import Mathlib

/-!
# Verification of the athena-brain-core specification

Shallow embedding of the `athena_brain` Python package and of its
mistake-to-rule induction engine ("Evolution Engine").

The repository's `core.py` and `__init__.py` import `athena_brain.evolution`
(`EvolutionEngine`), but no `evolution.py` is present in the source tree: the
engine itself (PatternAggregator, RuleSynthesizer, RuleLedger, EvolutionEngine)
is modelled here from the specification, as marked on each definition.
`memory.py`, `personalization.py`, `core.py` and `cli.py` are present and are
embedded from the source.

Conventions of the embedding:
* Python dicts keyed by `(pattern_id, category)` or by rule identity are
  association lists with insert-or-replace update; the spec's `rule_id` is a
  stable, reproducible derivation of `(pattern_id, category)`, so the rules
  map is keyed directly by that pair.
* Timestamps are abstract `Nat` clock values supplied by the caller.
* Python `float` values appearing in formulas are modelled as `ℚ`.
* A Python call that may raise is an `Except String` computation; a
  `try/except` block is a `match` on that computation.
-/

namespace AthenaBrain

/-- Key of a mistake pattern: `(pattern_id, category)`. -/
abbrev PatternKey := String × String

/-- Association-list lookup with decidable key equality (models Python dict
indexing). -/
def alookup {α : Type} (k : PatternKey) : List (PatternKey × α) → Option α
  | [] => none
  | kv :: rest => if kv.1 = k then some kv.2 else alookup k rest

/-- Association-list insert-or-replace (models Python dict assignment). -/
def aupdate {α : Type} (k : PatternKey) (v : α) :
    List (PatternKey × α) → List (PatternKey × α)
  | [] => [(k, v)]
  | kv :: rest => if kv.1 = k then (k, v) :: rest else kv :: aupdate k v rest

/-- The keys of an association list are pairwise distinct. -/
def NodupKeys {α : Type} (l : List (PatternKey × α)) : Prop :=
  (l.map Prod.fst).Nodup

/-- Modelled from the spec: §3 MistakePattern. Per-(pattern, category)
occurrence count and most recent evidence. `evolution.py` is imported by
`core.py` but absent from the source tree. -/
structure MistakePattern where
  pattern_id : String
  category : String
  occurrences : Nat
  first_seen : Nat
  last_seen : Nat
  last_description : String
  last_solution : String
  deriving Repr, DecidableEq

/-- Modelled from the spec: §3 Rule `status` field,
active | retired (retired only via external administrative action). -/
inductive RuleStatus where
  | active
  | retired
  deriving Repr, DecidableEq

/-- Modelled from the spec: §3 Rule. `rule_id` is a stable derivation of
`(pattern_id, category)`. -/
structure Rule where
  rule_id : PatternKey
  pattern_id : String
  category : String
  rule_text : String
  created_at : Nat
  source_occurrence_count : Nat
  status : RuleStatus
  deriving Repr, DecidableEq

/-- Modelled from the spec: §3 EvolutionState, the ledger's persisted root:
mappings `patterns` and `rules`. The rules map is keyed by the pair that
`rule_id` stably derives from. -/
structure EvolutionState where
  patterns : List (PatternKey × MistakePattern)
  rules : List (PatternKey × Rule)
  deriving Repr, DecidableEq

/-- Modelled from the spec: §4.3 `load()` returns an empty state if none
exists. -/
def emptyState : EvolutionState := ⟨[], []⟩

/-- Modelled from the spec: §3 Rule `rule_id`: a stable, reproducible
derivation of `(pattern_id, category)`. -/
def ruleId (pattern_id category : String) : PatternKey := (pattern_id, category)

/-- Modelled from the spec: §4.1 PatternAggregator.record. On a never-seen
key creates a pattern with `occurrences = 1`, `first_seen = last_seen = now`;
on an existing key increments `occurrences`, sets `last_seen = now` and
overwrites the evidence fields. -/
def record (now : Nat) (pattern_id category description solution : String)
    (s : EvolutionState) : MistakePattern :=
  match alookup (pattern_id, category) s.patterns with
  | none =>
      { pattern_id := pattern_id
        category := category
        occurrences := 1
        first_seen := now
        last_seen := now
        last_description := description
        last_solution := solution }
  | some p =>
      { p with
        occurrences := p.occurrences + 1
        last_seen := now
        last_description := description
        last_solution := solution }

/-- Modelled from the spec: §4.2 RuleSynthesizer.synthesize. Canonical rule
text: a structured composition of category, pattern identifier, the
corrective guidance derived from `last_solution`, and the occurrence count
at synthesis time. -/
def synthesize (p : MistakePattern) : String :=
  "[" ++ p.category ++ "] Recurring mistake " ++ p.pattern_id ++
    ": always apply the fix: " ++ p.last_solution ++
    " (seen " ++ toString p.occurrences ++ " times)"

/-- Modelled from the spec: §4.3 `rule_exists(pattern_id, category)`. -/
def ruleExists (pattern_id category : String) (s : EvolutionState) : Bool :=
  (alookup (ruleId pattern_id category) s.rules).isSome

/-- Modelled from the spec: §7 ValidationError (the only error kind reachable
in this pure-ledger model; PersistenceError needs a failing store). -/
inductive TrackError where
  | validationError : String → TrackError
  deriving Repr, DecidableEq

/-- The message of the validation failure (spec §4.4 step 1). -/
def validationMsg : String :=
  "pattern, description and solution must be non-empty and threshold must be at least 1"

/-- Modelled from the spec: §6 Result record
`(tracked, rule_generated, occurrences, rule)`; the `error` component is
carried by the `Except` layer. -/
structure TrackResult where
  tracked : Bool
  rule_generated : Bool
  occurrences : Nat
  rule : Option Rule
  deriving Repr, DecidableEq

/-- Modelled from the spec: §4.4 EvolutionEngine.track_mistake.
1. validate (`ValidationError` if `pattern_id`, `description` or `solution`
   is empty, or `threshold < 1`) before any mutation;
2. aggregate via `record`;
3. if a rule already exists for the key, persist the pattern only;
4. else if the updated count reaches the threshold, synthesize and insert a
   Rule and persist pattern and rule in one save;
5. else persist the pattern only.
The returned state is the single ledger save of the call. -/
def trackMistake (now : Nat) (pattern_id description solution category : String)
    (threshold : Int) (s : EvolutionState) :
    Except TrackError (TrackResult × EvolutionState) :=
  if pattern_id = "" ∨ description = "" ∨ solution = "" ∨ threshold < 1 then
    .error (.validationError validationMsg)
  else
    let p := record now pattern_id category description solution s
    let s1 : EvolutionState :=
      { s with patterns := aupdate (pattern_id, category) p s.patterns }
    if ruleExists pattern_id category s then
      .ok (⟨true, false, p.occurrences, none⟩, s1)
    else if (p.occurrences : Int) ≥ threshold then
      let r : Rule :=
        { rule_id := ruleId pattern_id category
          pattern_id := pattern_id
          category := category
          rule_text := synthesize p
          created_at := now
          source_occurrence_count := p.occurrences
          status := .active }
      .ok (⟨true, true, p.occurrences, some r⟩,
           { s1 with rules := aupdate (ruleId pattern_id category) r s1.rules })
    else
      .ok (⟨true, false, p.occurrences, none⟩, s1)

/-- Arguments of one `track_mistake` call. -/
structure CallArgs where
  now : Nat
  pattern_id : String
  description : String
  solution : String
  category : String
  threshold : Int
  deriving Repr, DecidableEq

/-- The persisted state after one call: the saved state on success, the
unchanged previous state when the call fails before mutating (fail-atomic,
spec §5). -/
def applyCall (s : EvolutionState) (a : CallArgs) : EvolutionState :=
  match trackMistake a.now a.pattern_id a.description a.solution a.category
      a.threshold s with
  | .ok (_, s') => s'
  | .error _ => s

/-- The persisted state after a sequence of calls starting from the empty
ledger. -/
def runCalls (calls : List CallArgs) : EvolutionState :=
  calls.foldl applyCall emptyState

/-- Occurrence count recorded for a key (0 when the pattern is absent). -/
def occAt (k : PatternKey) (s : EvolutionState) : Nat :=
  match alookup k s.patterns with
  | none => 0
  | some p => p.occurrences

/-- Per-call results of a sequence of `track_mistake` calls for one
`(pattern_id, category)` key, threading the persisted state; a call that
fails validation contributes `none` and leaves the state unchanged. Each
list element carries the call's timestamp, description and solution. -/
def resultsOfRun (pattern_id category : String) (threshold : Int) :
    EvolutionState → List (Nat × String × String) → List (Option TrackResult)
  | _, [] => []
  | s, ev :: rest =>
    match trackMistake ev.1 pattern_id ev.2.1 ev.2.2 category threshold s with
    | .ok (r, s') =>
        some r :: resultsOfRun pattern_id category threshold s' rest
    | .error _ => none :: resultsOfRun pattern_id category threshold s rest

/-- The state persisted when only the updated pattern is saved
(spec §4.4 steps 4 and 6). -/
def savePattern (now : Nat) (pid cat d so : String) (s : EvolutionState) :
    EvolutionState :=
  { s with patterns := aupdate (pid, cat) (record now pid cat d so s) s.patterns }

/-- The rule synthesized at the triggering call (spec §4.4 step 5). -/
def triggeredRule (now : Nat) (pid cat d so : String) (s : EvolutionState) :
    Rule :=
  { rule_id := ruleId pid cat
    pattern_id := pid
    category := cat
    rule_text := synthesize (record now pid cat d so s)
    created_at := now
    source_occurrence_count := (record now pid cat d so s).occurrences
    status := .active }

/-- The state persisted at the triggering call: updated pattern and new rule
in one save (spec §4.4 step 5). -/
def saveTrigger (now : Nat) (pid cat d so : String) (s : EvolutionState) :
    EvolutionState :=
  { patterns := aupdate (pid, cat) (record now pid cat d so s) s.patterns
    rules := aupdate (ruleId pid cat) (triggeredRule now pid cat d so s) s.rules }

/-- Well-formedness of the rules ledger: no two entries share a key, and
each rule's back-references agree with its key. -/
def RulesWF (s : EvolutionState) : Prop :=
  NodupKeys s.rules ∧ ∀ kv ∈ s.rules, kv.1 = (kv.2.pattern_id, kv.2.category)

/-- A concrete two-call run that triggers a rule for ("p", "general"). -/
def c2Calls : List CallArgs :=
  [⟨0, "p", "d1", "f1", "general", 2⟩, ⟨1, "p", "d2", "f2", "general", 2⟩]

/-- A concrete third call for the same key. -/
def c2More : CallArgs := ⟨2, "p", "d3", "f3", "general", 2⟩

/-- The pattern recorded after the two calls of `c2Calls`. -/
def c2Pattern2 : MistakePattern := ⟨"p", "general", 2, 0, 1, "d2", "f2"⟩

/-- The pattern recorded after `c2More` as well. -/
def c2Pattern3 : MistakePattern := ⟨"p", "general", 3, 0, 2, "d3", "f3"⟩

/-- The rule triggered by the second call of `c2Calls`. -/
def c2Rule : Rule :=
  ⟨("p", "general"), "p", "general", synthesize c2Pattern2, 1, 2, .active⟩

/-- Configuration of the evolution subsystem,
`(auto_track : bool, rule_threshold : int)` (core.py `_load_config` and spec
§6). -/
structure EvolutionConfig where
  auto_track : Bool
  rule_threshold : Int
  deriving Repr, DecidableEq

/-- The default configuration produced by core.py `_load_config`
(lines 70-83) when no config file exists:
`auto_track: True, rule_threshold: 2`. -/
def defaultEvolutionConfig : EvolutionConfig := ⟨true, 2⟩

/-- Embeds `AthenaBrain.track_mistake` (core.py lines 134-161): the Python
parameter default for `threshold` is the literal `2`, and for `category` the
literal `"general"`; an omitted argument is `none`. The instance's loaded
configuration `cfg` is held by the object (passed to the EvolutionEngine
constructor at line 53) but is not consulted by this method. -/
def brainTrackMistake (cfg : EvolutionConfig) (now : Nat)
    (pattern description solution : String) (category : Option String)
    (threshold : Option Int) (s : EvolutionState) :
    Except TrackError (TrackResult × EvolutionState) :=
  trackMistake now pattern description solution (category.getD "general")
    (threshold.getD 2) s

/-- Embeds the CLI `track-mistake` command (cli.py lines 36-40 and 66-74):
the parser defines no threshold flag, so the call to
`brain.track_mistake` always omits `threshold`. -/
def cliTrackMistake (cfg : EvolutionConfig) (now : Nat)
    (pattern description solution category : String) (s : EvolutionState) :
    Except TrackError (TrackResult × EvolutionState) :=
  brainTrackMistake cfg now pattern description solution (some category) none s

/-- One hex digit of an MD5 hexdigest character string. -/
abbrev HexDigit := Fin 16

/-- `int(hexdigest[i:i+2], 16)` (memory.py lines 95 and 154): the value of
the two-character slice of the hexdigest starting at `i`, read as
base 16. -/
def hexSliceVal (ds : List HexDigit) (i : Nat) : Nat :=
  ((ds.drop i).take 2).foldl (fun acc d => 16 * acc + d.val) 0

/-- memory.py lines 39 and 43: `embedding_dimension = 384` in both branches
of the constructor. -/
def embedding_dimension : Nat := 384

/-- memory.py `init_collection` (lines 45-66): the collection is created
with `VectorParams(size=self.embedding_dimension, ...)` (line 57). -/
def initCollectionVectorSize : Nat := embedding_dimension

/-- memory.py lines 92-96 (and identically 151-155): the fallback embedding
used when the embedding model is unavailable:
`[int(h[i:i+2],16)/255.0 for i in range(0, min(384, len(h), 2))]`
padded with `[0.0] * (384 - len(embedding))`. -/
def fallbackEmbedding (ds : List HexDigit) : List ℚ :=
  let n := min 384 (min ds.length 2)
  let vals := (List.range n).map (fun i => ((hexSliceVal ds i : ℚ) / 255))
  vals ++ List.replicate (384 - vals.length) 0

/-- Payload stored with each memory point (memory.py lines 103-109). -/
structure StorePayload where
  content : String
  category : String
  tags : List String
  metadata : List (String × String)
  timestamp : String
  deriving Repr, DecidableEq

/-- Payload of a Qdrant hit: every field may be missing, matching the
`payload.get(key, default)` accesses of memory.py lines 184-188. -/
structure SearchPayload where
  content : Option String
  category : Option String
  tags : Option (List String)
  metadata : Option (List (String × String))
  timestamp : Option String
  deriving Repr, DecidableEq

/-- A scored hit returned by the Qdrant client search. -/
structure ScoredPoint where
  id : String
  score : ℚ
  payload : SearchPayload
  deriving Repr, DecidableEq

/-- The record returned by `MemoryManager.store`
(memory.py lines 118-127). -/
structure StoreResult where
  success : Bool
  id : Option String
  message : Option String
  error : Option String
  deriving Repr, DecidableEq

/-- One formatted search result (memory.py lines 181-189). -/
structure MemoryRecord where
  id : String
  score : ℚ
  content : String
  category : String
  tags : List String
  metadata : List (String × String)
  timestamp : String
  deriving Repr, DecidableEq

/-- The external effects used by `MemoryManager.store` and
`MemoryManager.search`: the optional embedding model (`encode` may raise),
the MD5 hexdigest function, the Qdrant client calls (which may raise), and
the ambient uuid and clock. An `Except.error` models a raised Python
exception. -/
structure MemoryEnv where
  encode : Option (String → Except String (List ℚ))
  md5hex : String → List HexDigit
  upsert : String → List ℚ → StorePayload → Except String Unit
  clientSearch : List ℚ → Nat → Option String → Except String (List ScoredPoint)
  uuid4 : String
  nowIso : String

/-- The body of the `try` block of memory.py `store` (lines 87-116): embed
the content with the model when present, else with the fallback embedding;
build the point; upsert it. -/
def storePipeline (env : MemoryEnv) (content category : String)
    (tags : List String) (metadata : List (String × String)) :
    Except String String := do
  let embedding ← match env.encode with
    | some enc => enc content
    | none => pure (fallbackEmbedding (env.md5hex content))
  let pointId := env.uuid4
  let _ ← env.upsert pointId embedding
    ⟨content, category, tags, metadata, env.nowIso⟩
  pure pointId

/-- memory.py `MemoryManager.store` (lines 68-127): on success a record with
`success=True`, the point id and a message; on any exception inside the
`try` block, a record with `success=False` and the error string — the
exception is caught, never re-raised. -/
def MemoryManager.store (env : MemoryEnv) (content category : String)
    (tags : List String) (metadata : List (String × String)) : StoreResult :=
  match storePipeline env content category tags metadata with
  | .ok pointId => ⟨true, some pointId, some "Memory stored successfully", none⟩
  | .error e => ⟨false, none, none, some e⟩

/-- The body of the `try` block of memory.py `search` (lines 146-176): embed
the query (model or fallback) and run the client search with the limit and
optional category filter. -/
def searchPipeline (env : MemoryEnv) (query : String) (limit : Nat)
    (category : Option String) : Except String (List ScoredPoint) := do
  let queryEmbedding ← match env.encode with
    | some enc => enc query
    | none => pure (fallbackEmbedding (env.md5hex query))
  env.clientSearch queryEmbedding limit category

/-- memory.py lines 181-189: one hit formatted into a memory record, with
defaults for missing payload keys. -/
def formatResult (r : ScoredPoint) : MemoryRecord :=
  ⟨r.id, r.score, r.payload.content.getD "", r.payload.category.getD "",
   r.payload.tags.getD [], r.payload.metadata.getD [],
   r.payload.timestamp.getD ""⟩

/-- memory.py `MemoryManager.search` (lines 129-194): on success the
formatted hits, on any exception inside the `try` block the empty list —
the exception is caught, never re-raised. -/
def MemoryManager.search (env : MemoryEnv) (query : String) (limit : Nat)
    (category : Option String) : List MemoryRecord :=
  match searchPipeline env query limit category with
  | .ok results => results.map formatResult
  | .error _ => []

/-- An environment whose embedding model raises on every call. -/
def memEnvFail : MemoryEnv :=
  ⟨some (fun _ => .error "model failure"), fun _ => [],
   fun _ _ _ => .ok (), fun _ _ _ => .ok [], "id-1", "t0"⟩

/-- A concrete scored hit with a partially missing payload. -/
def memHit : ScoredPoint := ⟨"m1", 1 / 2, ⟨some "c", none, none, none, none⟩⟩

/-- An environment with no embedding model and a client search returning one
hit. -/
def memEnvOk : MemoryEnv :=
  ⟨none, fun _ => List.replicate 32 0, fun _ _ _ => .ok (),
   fun _ _ _ => .ok [memHit], "id-1", "t0"⟩

/-- Lookup in a style dict (string keys, numeric values). -/
def styleLookup (k : String) : List (String × ℚ) → Option ℚ
  | [] => none
  | kv :: rest => if kv.1 = k then some kv.2 else styleLookup k rest

/-- Insert-or-replace in a style dict (Python dict assignment). -/
def styleUpdate (k : String) (v : ℚ) :
    List (String × ℚ) → List (String × ℚ)
  | [] => [(k, v)]
  | kv :: rest =>
    if kv.1 = k then (k, v) :: rest else kv :: styleUpdate k v rest

/-- One iteration of the merge loop of personalization.py `learn_style`
(lines 112-120): an existing key is blended with the learning rate, a new
key is stored unchanged. -/
def learnStep (learning_rate : ℚ) (st : List (String × ℚ))
    (kv : String × ℚ) : List (String × ℚ) :=
  match styleLookup kv.1 st with
  | some old =>
      styleUpdate kv.1 (old * (1 - learning_rate) + kv.2 * learning_rate) st
  | none => styleUpdate kv.1 kv.2 st

/-- personalization.py `PersonalizationEngine.learn_style` (lines 96-123),
restricted to the profile's `style` mapping it mutates: fold the merge loop
over the items of `style_data`. -/
def learn_style (learning_rate : ℚ) (style : List (String × ℚ))
    (style_data : List (String × ℚ)) : List (String × ℚ) :=
  style_data.foldl (learnStep learning_rate) style

/-- The value `learn_style` gives a key of `style_data`: the blend when the
key was present, the raw value when it was not. -/
def styleBlend (learning_rate : ℚ) (old : Option ℚ) (v : ℚ) : ℚ :=
  match old with
  | some o => o * (1 - learning_rate) + v * learning_rate
  | none => v

theorem alookup_aupdate_self {α : Type} (k : PatternKey) (v : α)
    (l : List (PatternKey × α)) : alookup k (aupdate k v l) = some v := by
  induction l with
  | nil => simp [alookup, aupdate]
  | cons kv rest ih =>
    by_cases h : kv.1 = k
    · simp [alookup, aupdate, h]
    · simp [alookup, aupdate, h, ih]

theorem alookup_aupdate_ne {α : Type} {k k' : PatternKey} (hne : k' ≠ k)
    (v : α) (l : List (PatternKey × α)) :
    alookup k' (aupdate k v l) = alookup k' l := by
  have hkk' : ¬ (k = k') := fun h => hne h.symm
  induction l with
  | nil => simp [alookup, aupdate, hkk']
  | cons kv rest ih =>
    by_cases h : kv.1 = k
    · have h2 : ¬ (kv.1 = k') := fun hh => hkk' (h.symm.trans hh)
      simp [alookup, aupdate, h, h2, hkk']
    · simp [alookup, aupdate, h, ih]

theorem mem_aupdate {α : Type} {kv : PatternKey × α} {k : PatternKey} {v : α}
    {l : List (PatternKey × α)} (h : kv ∈ aupdate k v l) :
    kv = (k, v) ∨ kv ∈ l := by
  induction l with
  | nil => simpa [aupdate] using h
  | cons kv' rest ih =>
    by_cases hk : kv'.1 = k
    · simp only [aupdate, hk, if_pos, List.mem_cons] at h
      rcases h with h | h
      · exact Or.inl h
      · exact Or.inr (List.mem_cons_of_mem _ h)
    · simp only [aupdate, hk, if_neg, not_false_iff, List.mem_cons] at h
      rcases h with h | h
      · exact Or.inr (List.mem_cons.mpr (Or.inl h))
      · rcases ih h with h' | h'
        · exact Or.inl h'
        · exact Or.inr (List.mem_cons_of_mem _ h')

theorem nodupKeys_aupdate {α : Type} {l : List (PatternKey × α)}
    (h : NodupKeys l) (k : PatternKey) (v : α) :
    NodupKeys (aupdate k v l) := by
  induction l with
  | nil => simp [NodupKeys, aupdate]
  | cons kv rest ih =>
    simp only [NodupKeys, List.map_cons, List.nodup_cons] at h
    by_cases hk : kv.1 = k
    · subst hk
      simpa [NodupKeys, aupdate, List.nodup_cons] using h
    · have hrest := ih h.2
      simp only [NodupKeys, aupdate, hk, if_neg, not_false_iff, List.map_cons,
        List.nodup_cons]
      refine ⟨fun hmem => ?_, hrest⟩
      rcases List.mem_map.mp hmem with ⟨kv', hkv', hfst⟩
      rcases mem_aupdate hkv' with h' | h'
      · exact hk (by rw [← hfst, h'])
      · exact h.1 (hfst ▸ List.mem_map_of_mem Prod.fst h')

theorem record_occurrences (now : Nat) (pid cat d so : String)
    (s : EvolutionState) :
    (record now pid cat d so s).occurrences = occAt (pid, cat) s + 1 := by
  unfold record occAt
  cases alookup (pid, cat) s.patterns <;> simp

theorem record_pattern_id (now : Nat) (pid cat d so : String)
    (s : EvolutionState) (p : MistakePattern)
    (hp : alookup (pid, cat) s.patterns = some p) :
    (record now pid cat d so s).pattern_id = p.pattern_id ∧
      (record now pid cat d so s).category = p.category ∧
      (record now pid cat d so s).first_seen = p.first_seen := by
  unfold record
  rw [hp]
  exact ⟨rfl, rfl, rfl⟩

/-- `track_mistake` on valid input, written out branch by branch: the shape
every success-path proof below case-splits on. -/
theorem trackMistake_ok_eq (now : Nat) (pid d so cat : String)
    (threshold : Int) (s : EvolutionState)
    (hpid : pid ≠ "") (hd : d ≠ "") (hso : so ≠ "") (hT : 1 ≤ threshold) :
    trackMistake now pid d so cat threshold s =
      (let p := record now pid cat d so s
       let s1 : EvolutionState :=
         { s with patterns := aupdate (pid, cat) p s.patterns }
       if ruleExists pid cat s then
         .ok (⟨true, false, p.occurrences, none⟩, s1)
       else if (p.occurrences : Int) ≥ threshold then
         let r : Rule :=
           { rule_id := ruleId pid cat
             pattern_id := pid
             category := cat
             rule_text := synthesize p
             created_at := now
             source_occurrence_count := p.occurrences
             status := .active }
         .ok (⟨true, true, p.occurrences, some r⟩,
              { s1 with rules := aupdate (ruleId pid cat) r s1.rules })
       else
         .ok (⟨true, false, p.occurrences, none⟩, s1)) := by
  unfold trackMistake
  rw [if_neg]
  push_neg
  exact ⟨hpid, hd, hso, by omega⟩

theorem occAt_eq_of_alookup {k : PatternKey} {s : EvolutionState}
    {p : MistakePattern} (h : alookup k s.patterns = some p) :
    occAt k s = p.occurrences := by
  unfold occAt
  rw [h]

theorem occAt_savePattern (now : Nat) (pid cat d so : String)
    (s : EvolutionState) :
    occAt (pid, cat) (savePattern now pid cat d so s)
      = occAt (pid, cat) s + 1 := by
  have h : alookup (pid, cat) (savePattern now pid cat d so s).patterns
      = some (record now pid cat d so s) := alookup_aupdate_self _ _ _
  rw [occAt_eq_of_alookup h, record_occurrences]

theorem ruleExists_savePattern (now : Nat) (pid cat d so : String)
    (s : EvolutionState) :
    ruleExists pid cat (savePattern now pid cat d so s)
      = ruleExists pid cat s := rfl

theorem occAt_saveTrigger (now : Nat) (pid cat d so : String)
    (s : EvolutionState) :
    occAt (pid, cat) (saveTrigger now pid cat d so s)
      = occAt (pid, cat) s + 1 := by
  have h : alookup (pid, cat) (saveTrigger now pid cat d so s).patterns
      = some (record now pid cat d so s) := alookup_aupdate_self _ _ _
  rw [occAt_eq_of_alookup h, record_occurrences]

theorem ruleExists_saveTrigger (now : Nat) (pid cat d so : String)
    (s : EvolutionState) :
    ruleExists pid cat (saveTrigger now pid cat d so s) = true := by
  unfold ruleExists saveTrigger
  rw [alookup_aupdate_self]
  rfl

/-- Success branch: a rule already exists for the key (spec §4.4 step 4). -/
theorem trackMistake_ok_ruled (now : Nat) (pid d so cat : String)
    (threshold : Int) (s : EvolutionState)
    (hpid : pid ≠ "") (hd : d ≠ "") (hso : so ≠ "") (hT : 1 ≤ threshold)
    (hre : ruleExists pid cat s = true) :
    trackMistake now pid d so cat threshold s =
      .ok (⟨true, false, (record now pid cat d so s).occurrences, none⟩,
           savePattern now pid cat d so s) := by
  rw [trackMistake_ok_eq now pid d so cat threshold s hpid hd hso hT]
  simp only [savePattern, hre, if_true]

/-- Success branch: no rule yet and the updated count reaches the threshold
(spec §4.4 step 5). -/
theorem trackMistake_ok_trigger (now : Nat) (pid d so cat : String)
    (threshold : Int) (s : EvolutionState)
    (hpid : pid ≠ "") (hd : d ≠ "") (hso : so ≠ "") (hT : 1 ≤ threshold)
    (hre : ruleExists pid cat s = false)
    (hth : threshold ≤ ((record now pid cat d so s).occurrences : Int)) :
    trackMistake now pid d so cat threshold s =
      .ok (⟨true, true, (record now pid cat d so s).occurrences,
            some (triggeredRule now pid cat d so s)⟩,
           saveTrigger now pid cat d so s) := by
  rw [trackMistake_ok_eq now pid d so cat threshold s hpid hd hso hT]
  simp only [saveTrigger, triggeredRule, hre, Bool.false_eq_true, if_false,
    ge_iff_le, hth, if_true]

/-- Success branch: no rule yet and the updated count is still below the
threshold (spec §4.4 step 6). -/
theorem trackMistake_ok_below (now : Nat) (pid d so cat : String)
    (threshold : Int) (s : EvolutionState)
    (hpid : pid ≠ "") (hd : d ≠ "") (hso : so ≠ "") (hT : 1 ≤ threshold)
    (hre : ruleExists pid cat s = false)
    (hth : ¬ threshold ≤ ((record now pid cat d so s).occurrences : Int)) :
    trackMistake now pid d so cat threshold s =
      .ok (⟨true, false, (record now pid cat d so s).occurrences, none⟩,
           savePattern now pid cat d so s) := by
  rw [trackMistake_ok_eq now pid d so cat threshold s hpid hd hso hT]
  simp only [savePattern, hre, Bool.false_eq_true, if_false, ge_iff_le, hth,
    if_false]

/-- Unfolding a same-key run one successful call at a time. -/
theorem resultsOfRun_cons_ok (pid cat : String) (threshold : Int)
    (s : EvolutionState) (ev : Nat × String × String)
    (rest : List (Nat × String × String)) {r : TrackResult}
    {s' : EvolutionState}
    (h : trackMistake ev.1 pid ev.2.1 ev.2.2 cat threshold s = .ok (r, s')) :
    resultsOfRun pid cat threshold s (ev :: rest)
      = some r :: resultsOfRun pid cat threshold s' rest := by
  simp only [resultsOfRun, h]

/-- Invariant-carrying induction for a same-key run: when the state records
`n` occurrences for the key and has a rule for it exactly when
`threshold ≤ n`, the `i`-th subsequent valid call reports
`rule_generated = true` exactly when `n + i + 1 = threshold`. -/
theorem resultsOfRun_rule_generated (pattern_id category : String)
    (threshold : Int) (evs : List (Nat × String × String))
    (hpid : pattern_id ≠ "") (hT : 1 ≤ threshold)
    (hevs : ∀ ev ∈ evs, ev.2.1 ≠ "" ∧ ev.2.2 ≠ "")
    (s : EvolutionState) (n : Nat)
    (hocc : occAt (pattern_id, category) s = n)
    (hrule : ruleExists pattern_id category s
      = decide (threshold ≤ (n : Int))) :
    (resultsOfRun pattern_id category threshold s evs).map
        (fun o => o.map TrackResult.rule_generated)
      = (List.range evs.length).map
          (fun i => some (decide (((n + i + 1 : Nat) : Int) = threshold))) := by
  induction evs generalizing s n with
  | nil => simp [resultsOfRun]
  | cons ev rest ih =>
    obtain ⟨hd, hso⟩ := hevs ev (List.mem_cons_self ev rest)
    have hrest : ∀ e ∈ rest, e.2.1 ≠ "" ∧ e.2.2 ≠ "" :=
      fun e he => hevs e (List.mem_cons_of_mem _ he)
    have hocc1 :
        (record ev.1 pattern_id category ev.2.1 ev.2.2 s).occurrences
          = n + 1 := by
      rw [record_occurrences, hocc]
    by_cases hre : ruleExists pattern_id category s = true
    · -- a rule already exists, so threshold ≤ n
      have hn : threshold ≤ (n : Int) := by
        rw [hre] at hrule
        exact of_decide_eq_true hrule.symm
      rw [resultsOfRun_cons_ok pattern_id category threshold s ev rest
        (trackMistake_ok_ruled ev.1 pattern_id ev.2.1 ev.2.2 category
          threshold s hpid hd hso hT hre)]
      rw [List.map_cons,
        ih hrest (savePattern ev.1 pattern_id category ev.2.1 ev.2.2 s) (n + 1)
          (by rw [occAt_savePattern, hocc])
          (by
            rw [ruleExists_savePattern, hre]
            symm
            exact decide_eq_true (by push_cast; omega))]
      rw [List.length_cons, List.range_succ_eq_map, List.map_cons,
        List.map_map]
      refine List.cons_eq_cons.mpr ⟨?_, ?_⟩
      · have h1 : decide (((n + 0 + 1 : Nat) : Int) = threshold) = false :=
          decide_eq_false (by push_cast; omega)
        simp only [Option.map_some', h1]
      · apply List.map_congr_left
        intro i _
        simp only [Function.comp_apply]
        congr 1
        apply decide_eq_decide.mpr
        push_cast
        omega
    · have hre' : ruleExists pattern_id category s = false := by
        simpa using hre
      have hn : ¬ threshold ≤ (n : Int) := by
        rw [hre'] at hrule
        intro hc
        rw [decide_eq_true hc] at hrule
        exact Bool.false_ne_true hrule
      by_cases hth : threshold
          ≤ ((record ev.1 pattern_id category ev.2.1 ev.2.2 s).occurrences : Int)
      · -- the triggering call
        rw [resultsOfRun_cons_ok pattern_id category threshold s ev rest
          (trackMistake_ok_trigger ev.1 pattern_id ev.2.1 ev.2.2 category
            threshold s hpid hd hso hT hre' hth)]
        rw [hocc1] at hth
        rw [List.map_cons,
          ih hrest (saveTrigger ev.1 pattern_id category ev.2.1 ev.2.2 s) (n + 1)
            (by rw [occAt_saveTrigger, hocc])
            (by
              rw [ruleExists_saveTrigger]
              symm
              exact decide_eq_true hth)]
        rw [List.length_cons, List.range_succ_eq_map, List.map_cons,
          List.map_map]
        refine List.cons_eq_cons.mpr ⟨?_, ?_⟩
        · have h1 : decide (((n + 0 + 1 : Nat) : Int) = threshold) = true :=
            decide_eq_true (by push_cast at hth ⊢; omega)
          simp only [Option.map_some', h1]
        · apply List.map_congr_left
          intro i _
          simp only [Function.comp_apply]
          congr 1
          apply decide_eq_decide.mpr
          push_cast
          omega
      · -- still below threshold
        rw [resultsOfRun_cons_ok pattern_id category threshold s ev rest
          (trackMistake_ok_below ev.1 pattern_id ev.2.1 ev.2.2 category
            threshold s hpid hd hso hT hre' hth)]
        rw [hocc1] at hth
        rw [List.map_cons,
          ih hrest (savePattern ev.1 pattern_id category ev.2.1 ev.2.2 s) (n + 1)
            (by rw [occAt_savePattern, hocc])
            (by
              rw [ruleExists_savePattern, hre']
              symm
              exact decide_eq_false hth)]
        rw [List.length_cons, List.range_succ_eq_map, List.map_cons,
          List.map_map]
        refine List.cons_eq_cons.mpr ⟨?_, ?_⟩
        · have h1 : decide (((n + 0 + 1 : Nat) : Int) = threshold) = false :=
            decide_eq_false (by push_cast at hth ⊢; omega)
          simp only [Option.map_some', h1]
        · apply List.map_congr_left
          intro i _
          simp only [Function.comp_apply]
          congr 1
          apply decide_eq_decide.mpr
          push_cast
          omega

/-- Complete case analysis of one `track_mistake` call: it fails validation,
or it persists only the updated pattern, or it triggers a rule and persists
pattern and rule in one save. -/
theorem trackMistake_total (now : Nat) (pid d so cat : String)
    (threshold : Int) (s : EvolutionState) :
    (trackMistake now pid d so cat threshold s
        = .error (.validationError validationMsg)
      ∧ (pid = "" ∨ d = "" ∨ so = "" ∨ threshold < 1))
    ∨ (trackMistake now pid d so cat threshold s
        = .ok (⟨true, false, (record now pid cat d so s).occurrences, none⟩,
               savePattern now pid cat d so s)
      ∧ ¬ (pid = "" ∨ d = "" ∨ so = "" ∨ threshold < 1))
    ∨ (trackMistake now pid d so cat threshold s
        = .ok (⟨true, true, (record now pid cat d so s).occurrences,
               some (triggeredRule now pid cat d so s)⟩,
               saveTrigger now pid cat d so s)
      ∧ ¬ (pid = "" ∨ d = "" ∨ so = "" ∨ threshold < 1)
      ∧ ruleExists pid cat s = false) := by
  by_cases hv : (pid = "" ∨ d = "" ∨ so = "" ∨ threshold < 1)
  · left
    refine ⟨?_, hv⟩
    unfold trackMistake
    rw [if_pos hv]
  · have hcomp : pid ≠ "" ∧ d ≠ "" ∧ so ≠ "" ∧ 1 ≤ threshold := by
      push_neg at hv
      exact hv
    obtain ⟨hpid, hd, hso, hT⟩ := hcomp
    by_cases hre : ruleExists pid cat s = true
    · right; left
      exact ⟨trackMistake_ok_ruled now pid d so cat threshold s hpid hd hso hT
        hre, hv⟩
    · have hre' : ruleExists pid cat s = false := by simpa using hre
      by_cases hocc : threshold ≤ ((record now pid cat d so s).occurrences : Int)
      · right; right
        exact ⟨trackMistake_ok_trigger now pid d so cat threshold s hpid hd hso
          hT hre' hocc, hv, hre'⟩
      · right; left
        exact ⟨trackMistake_ok_below now pid d so cat threshold s hpid hd hso
          hT hre' hocc, hv⟩

/-- C1: over any sequence of successful `track_mistake` calls for one
`(pattern_id, category)` key starting from the empty ledger with a fixed
threshold `T ≥ 1`, the `rule_generated` flags are false before the `T`-th
call, true exactly on the `T`-th call, and false on every later call: the
call at 0-based index `i` reports `true` iff `i + 1 = T`. -/
theorem trackMistake_rule_generated_exactly_at_threshold
    (pattern_id category : String) (threshold : Int)
    (evs : List (Nat × String × String))
    (hpid : pattern_id ≠ "") (hT : 1 ≤ threshold)
    (hevs : ∀ ev ∈ evs, ev.2.1 ≠ "" ∧ ev.2.2 ≠ "") :
    (resultsOfRun pattern_id category threshold emptyState evs).map
        (fun o => o.map TrackResult.rule_generated)
      = (List.range evs.length).map
          (fun i => some (decide (((i + 1 : Nat) : Int) = threshold))) := by
  have h0 : occAt (pattern_id, category) emptyState = 0 := rfl
  have h1 : ruleExists pattern_id category emptyState
      = decide (threshold ≤ ((0 : Nat) : Int)) := by
    have : decide (threshold ≤ ((0 : Nat) : Int)) = false :=
      decide_eq_false (by push_cast; omega)
    rw [this]
    rfl
  rw [resultsOfRun_rule_generated pattern_id category threshold evs hpid hT
    hevs emptyState 0 h0 h1]
  apply List.map_congr_left
  intro i _
  congr 1
  apply decide_eq_decide.mpr
  push_cast
  omega

/-- Witness for C1: pattern "p1", threshold 2, three valid calls: the
`rule_generated` flags are false, true, false. -/
theorem trackMistake_rule_generated_exactly_at_threshold_witness :
    (resultsOfRun "p1" "general" 2 emptyState
        [(0, "d1", "f1"), (1, "d2", "f2"), (2, "d3", "f3")]).map
        (fun o => o.map TrackResult.rule_generated)
      = [some false, some true, some false] := by
  rw [trackMistake_rule_generated_exactly_at_threshold "p1" "general" 2
    [(0, "d1", "f1"), (1, "d2", "f2"), (2, "d3", "f3")]
    (by decide) (by omega) (by decide)]
  rfl

theorem occAt_eq_of_alookup_none {k : PatternKey} {s : EvolutionState}
    (h : alookup k s.patterns = none) : occAt k s = 0 := by
  unfold occAt
  rw [h]

theorem occAt_congr {k : PatternKey} {s s' : EvolutionState}
    (h : alookup k s'.patterns = alookup k s.patterns) :
    occAt k s' = occAt k s := by
  unfold occAt
  rw [h]

/-- `record` on a never-seen key builds the initial pattern
(spec §4.1 never-seen case). -/
theorem record_none {now : Nat} {pid cat d so : String} {s : EvolutionState}
    (h : alookup (pid, cat) s.patterns = none) :
    record now pid cat d so s = ⟨pid, cat, 1, now, now, d, so⟩ := by
  unfold record
  rw [h]

/-- Inversion of a successful call: the reported count is the aggregated
pattern's and the persisted patterns map holds the aggregated pattern. -/
theorem trackMistake_ok_shape {now : Nat} {pid d so cat : String}
    {threshold : Int} {s : EvolutionState} {r : TrackResult}
    {s' : EvolutionState}
    (h : trackMistake now pid d so cat threshold s = .ok (r, s')) :
    r.occurrences = (record now pid cat d so s).occurrences
    ∧ s'.patterns = aupdate (pid, cat) (record now pid cat d so s) s.patterns := by
  rcases trackMistake_total now pid d so cat threshold s with
    ⟨heq, _⟩ | ⟨heq, _⟩ | ⟨heq, _, _⟩ <;> rw [heq] at h
  · cases h
  · cases h
    exact ⟨rfl, rfl⟩
  · cases h
    exact ⟨rfl, rfl⟩

/-- C3: per-key occurrence counts never decrease under any call; a
successful call for a key increments its count by exactly 1 (and reports the
new count), leaves every other key's count unchanged, and creates a
never-seen pattern with `occurrences = 1` and
`first_seen = last_seen = now`. -/
theorem trackMistake_occurrences_monotone (a : CallArgs) (s : EvolutionState) :
    (∀ k : PatternKey, occAt k s ≤ occAt k (applyCall s a))
    ∧ (∀ (r : TrackResult) (s' : EvolutionState),
        trackMistake a.now a.pattern_id a.description a.solution a.category
            a.threshold s = .ok (r, s') →
        occAt (a.pattern_id, a.category) s'
            = occAt (a.pattern_id, a.category) s + 1
          ∧ r.occurrences = occAt (a.pattern_id, a.category) s + 1
          ∧ ∀ k : PatternKey, k ≠ (a.pattern_id, a.category) →
              occAt k s' = occAt k s)
    ∧ (alookup (a.pattern_id, a.category) s.patterns = none →
        ∀ (r : TrackResult) (s' : EvolutionState),
          trackMistake a.now a.pattern_id a.description a.solution a.category
              a.threshold s = .ok (r, s') →
          alookup (a.pattern_id, a.category) s'.patterns
            = some ⟨a.pattern_id, a.category, 1, a.now, a.now, a.description,
                a.solution⟩) := by
  have hmid : ∀ (r : TrackResult) (s' : EvolutionState),
      trackMistake a.now a.pattern_id a.description a.solution a.category
          a.threshold s = .ok (r, s') →
      occAt (a.pattern_id, a.category) s'
          = occAt (a.pattern_id, a.category) s + 1
        ∧ r.occurrences = occAt (a.pattern_id, a.category) s + 1
        ∧ ∀ k : PatternKey, k ≠ (a.pattern_id, a.category) →
            occAt k s' = occAt k s := by
    intro r s' h
    obtain ⟨hr, hpat⟩ := trackMistake_ok_shape h
    have hself : alookup (a.pattern_id, a.category) s'.patterns
        = some (record a.now a.pattern_id a.category a.description
            a.solution s) := by
      rw [hpat]
      exact alookup_aupdate_self _ _ _
    refine ⟨?_, ?_, ?_⟩
    · rw [occAt_eq_of_alookup hself, record_occurrences]
    · rw [hr, record_occurrences]
    · intro k hk
      apply occAt_congr
      rw [hpat]
      exact alookup_aupdate_ne hk _ _
  refine ⟨?_, hmid, ?_⟩
  · intro k
    rcases htot : trackMistake a.now a.pattern_id a.description a.solution
        a.category a.threshold s with e | rs
    · unfold applyCall
      rw [htot]
    · obtain ⟨r, s'⟩ := rs
      have happ : applyCall s a = s' := by
        unfold applyCall
        rw [htot]
      rw [happ]
      obtain ⟨h1, _, h3⟩ := hmid r s' htot
      by_cases hk : k = (a.pattern_id, a.category)
      · subst hk
        omega
      · rw [h3 k hk]
  · intro hnone r s' h
    obtain ⟨_, hpat⟩ := trackMistake_ok_shape h
    rw [hpat, record_none hnone]
    exact alookup_aupdate_self _ _ _

/-- Witness for C3 at a concrete call on the empty state. -/
theorem trackMistake_occurrences_monotone_witness :
    occAt ("p1", "general")
        (applyCall emptyState ⟨0, "p1", "d1", "f1", "general", 2⟩) = 1
    ∧ alookup ("p1", "general")
        (applyCall emptyState ⟨0, "p1", "d1", "f1", "general", 2⟩).patterns
      = some ⟨"p1", "general", 1, 0, 0, "d1", "f1"⟩ := by
  have h := trackMistake_occurrences_monotone
    ⟨0, "p1", "d1", "f1", "general", 2⟩ emptyState
  have htot : trackMistake 0 "p1" "d1" "f1" "general" 2 emptyState
      = .ok (⟨true, false, 1, none⟩, applyCall emptyState
          ⟨0, "p1", "d1", "f1", "general", 2⟩) := by rfl
  constructor
  · have h1 := (h.2.1 ⟨true, false, 1, none⟩ _ htot).1
    rw [h1]
    decide
  · exact h.2.2 (by decide) ⟨true, false, 1, none⟩ _ htot

/-- C4: fail-atomicity of `track_mistake`: a call with empty `pattern_id`,
`description` or `solution`, or `threshold < 1`, fails with a
ValidationError and the persisted state is identical to the state before the
call; an error outcome never changes the persisted state; a valid call
completes and persists exactly the saved state. -/
theorem trackMistake_fail_atomic (a : CallArgs) (s : EvolutionState) :
    ((a.pattern_id = "" ∨ a.description = "" ∨ a.solution = ""
        ∨ a.threshold < 1) →
      trackMistake a.now a.pattern_id a.description a.solution a.category
          a.threshold s = .error (.validationError validationMsg)
        ∧ applyCall s a = s)
    ∧ (∀ e : TrackError,
        trackMistake a.now a.pattern_id a.description a.solution
          a.category a.threshold s = .error e → applyCall s a = s)
    ∧ ((a.pattern_id ≠ "" ∧ a.description ≠ "" ∧ a.solution ≠ ""
        ∧ 1 ≤ a.threshold) →
      ∃ (r : TrackResult) (s' : EvolutionState),
        trackMistake a.now a.pattern_id a.description a.solution a.category
            a.threshold s = .ok (r, s') ∧ applyCall s a = s') := by
  refine ⟨?_, ?_, ?_⟩
  · intro hv
    rcases trackMistake_total a.now a.pattern_id a.description a.solution
        a.category a.threshold s with ⟨heq, _⟩ | ⟨heq, hnv⟩ | ⟨heq, hnv, _⟩
    · refine ⟨heq, ?_⟩
      unfold applyCall
      rw [heq]
    · exact absurd hv hnv
    · exact absurd hv hnv
  · intro e he
    unfold applyCall
    rw [he]
  · intro hvalid
    obtain ⟨h1, h2, h3, h4⟩ := hvalid
    rcases trackMistake_total a.now a.pattern_id a.description a.solution
        a.category a.threshold s with ⟨heq, hv⟩ | ⟨heq, _⟩ | ⟨heq, _, _⟩
    · exfalso
      rcases hv with h | h | h | h
      · exact h1 h
      · exact h2 h
      · exact h3 h
      · omega
    · refine ⟨_, _, heq, ?_⟩
      unfold applyCall
      rw [heq]
    · refine ⟨_, _, heq, ?_⟩
      unfold applyCall
      rw [heq]

/-- Witness for C4: the call with an empty pattern_id fails with a
ValidationError and leaves the empty state unchanged. -/
theorem trackMistake_fail_atomic_witness :
    trackMistake 0 "" "d" "s" "general" 2 emptyState
      = .error (.validationError validationMsg)
    ∧ applyCall emptyState ⟨0, "", "d", "s", "general", 2⟩ = emptyState :=
  (trackMistake_fail_atomic ⟨0, "", "d", "s", "general", 2⟩ emptyState).1
    (Or.inl rfl)

theorem savePattern_patterns (now : Nat) (pid cat d so : String)
    (s : EvolutionState) :
    (savePattern now pid cat d so s).patterns
      = aupdate (pid, cat) (record now pid cat d so s) s.patterns := rfl

theorem savePattern_rules (now : Nat) (pid cat d so : String)
    (s : EvolutionState) :
    (savePattern now pid cat d so s).rules = s.rules := rfl

theorem saveTrigger_patterns (now : Nat) (pid cat d so : String)
    (s : EvolutionState) :
    (saveTrigger now pid cat d so s).patterns
      = aupdate (pid, cat) (record now pid cat d so s) s.patterns := rfl

theorem saveTrigger_rules (now : Nat) (pid cat d so : String)
    (s : EvolutionState) :
    (saveTrigger now pid cat d so s).rules
      = aupdate (ruleId pid cat) (triggeredRule now pid cat d so s) s.rules :=
  rfl

theorem rulesWF_empty : RulesWF emptyState := by
  constructor
  · simp [NodupKeys, emptyState]
  · intro kv hkv
    simp [emptyState] at hkv

theorem rulesWF_applyCall {s : EvolutionState} (h : RulesWF s) (a : CallArgs) :
    RulesWF (applyCall s a) := by
  rcases trackMistake_total a.now a.pattern_id a.description a.solution
      a.category a.threshold s with ⟨heq, _⟩ | ⟨heq, _⟩ | ⟨heq, _, _⟩ <;>
    (unfold applyCall; rw [heq])
  · exact h
  · exact h
  · constructor
    · show NodupKeys (saveTrigger a.now a.pattern_id a.category a.description
        a.solution s).rules
      rw [saveTrigger_rules]
      exact nodupKeys_aupdate h.1 _ _
    · intro kv hkv
      rw [saveTrigger_rules] at hkv
      rcases mem_aupdate hkv with h' | h'
      · rw [h']
        rfl
      · exact h.2 kv h'

theorem rulesWF_runCalls (calls : List CallArgs) : RulesWF (runCalls calls) := by
  unfold runCalls
  have hstep : ∀ (l : List CallArgs) (s : EvolutionState),
      RulesWF s → RulesWF (l.foldl applyCall s) := by
    intro l
    induction l with
    | nil =>
      intro s hs
      exact hs
    | cons a rest ih =>
      intro s hs
      exact ih _ (rulesWF_applyCall hs a)
  exact hstep calls emptyState rulesWF_empty

theorem filter_length_le_one {α : Type} {l : List (PatternKey × α)}
    {P : PatternKey × α → Bool} {k0 : PatternKey}
    (hnd : NodupKeys l) (hP : ∀ kv ∈ l, P kv = true → kv.1 = k0) :
    (l.filter P).length ≤ 1 := by
  induction l with
  | nil => simp
  | cons kv rest ih =>
    simp only [NodupKeys, List.map_cons, List.nodup_cons] at hnd
    by_cases hp : P kv = true
    · have hk : kv.1 = k0 := hP kv (List.mem_cons_self kv rest) hp
      have hnil : rest.filter P = [] := by
        rw [List.filter_eq_nil_iff]
        intro b hb hPb
        have hb1 : b.1 = k0 := hP b (List.mem_cons_of_mem _ hb) hPb
        apply hnd.1
        rw [hk, ← hb1]
        exact List.mem_map_of_mem Prod.fst hb
      simp [List.filter_cons, hp, hnil]
    · simp only [List.filter_cons, hp, if_false, Bool.false_eq_true]
      exact ih hnd.2 fun kv' h' hp' => hP kv' (List.mem_cons_of_mem _ h') hp'

/-- A rule present in the ledger survives any later call unchanged. -/
theorem rules_lookup_preserved (a : CallArgs) {s : EvolutionState}
    {k : PatternKey} {r : Rule} (h : alookup k s.rules = some r) :
    alookup k (applyCall s a).rules = some r := by
  rcases trackMistake_total a.now a.pattern_id a.description a.solution
      a.category a.threshold s with ⟨heq, _⟩ | ⟨heq, _⟩ | ⟨heq, _, hre⟩ <;>
    (unfold applyCall; rw [heq])
  · exact h
  · exact h
  · rw [saveTrigger_rules]
    by_cases hk : k = ruleId a.pattern_id a.category
    · exfalso
      unfold ruleExists at hre
      rw [← hk, h] at hre
      simp at hre
    · rw [alookup_aupdate_ne hk]
      exact h

theorem rules_lookup_preserved_foldl (more : List CallArgs) :
    ∀ (s : EvolutionState) {k : PatternKey} {r : Rule},
      alookup k s.rules = some r →
      alookup k (more.foldl applyCall s).rules = some r := by
  induction more with
  | nil =>
    intro s k r h
    simpa using h
  | cons a rest ih =>
    intro s k r h
    exact ih _ (rules_lookup_preserved a h)

/-- C2: in every state reachable from the empty ledger, at most one rule
exists per `(pattern_id, category)`; a rule, once present, is never replaced
or modified by later calls; and a later call changes only a pattern's
evidence fields, never its identity or `first_seen`. -/
theorem evolution_rules_unique_immutable (calls : List CallArgs) :
    (∀ pid cat : String,
      ((runCalls calls).rules.filter
          (fun kv => kv.2.pattern_id == pid && kv.2.category == cat)).length
        ≤ 1)
    ∧ (∀ (k : PatternKey) (r : Rule),
        alookup k (runCalls calls).rules = some r →
        ∀ more : List CallArgs,
          alookup k (runCalls (calls ++ more)).rules = some r)
    ∧ (∀ (a : CallArgs) (k : PatternKey) (p p' : MistakePattern),
        alookup k (runCalls calls).patterns = some p →
        alookup k (applyCall (runCalls calls) a).patterns = some p' →
        p'.pattern_id = p.pattern_id ∧ p'.category = p.category
          ∧ p'.first_seen = p.first_seen) := by
  refine ⟨?_, ?_, ?_⟩
  · intro pid cat
    have hwf := rulesWF_runCalls calls
    apply filter_length_le_one hwf.1
    intro kv hkv hP
    have hb := hwf.2 kv hkv
    simp only [Bool.and_eq_true, beq_iff_eq] at hP
    rw [hb, hP.1, hP.2]
  · intro k r h more
    unfold runCalls
    rw [List.foldl_append]
    exact rules_lookup_preserved_foldl more _ h
  · intro a k p p' hp hp'
    rcases trackMistake_total a.now a.pattern_id a.description a.solution
        a.category a.threshold (runCalls calls) with
      ⟨heq, _⟩ | ⟨heq, _⟩ | ⟨heq, _, _⟩ <;>
      (unfold applyCall at hp'; rw [heq] at hp')
    · rw [hp] at hp'
      cases hp'
      exact ⟨rfl, rfl, rfl⟩
    · rw [savePattern_patterns] at hp'
      by_cases hk : k = (a.pattern_id, a.category)
      · subst hk
        rw [alookup_aupdate_self] at hp'
        cases hp'
        exact record_pattern_id a.now a.pattern_id a.category a.description
          a.solution (runCalls calls) p hp
      · rw [alookup_aupdate_ne hk] at hp'
        rw [hp] at hp'
        cases hp'
        exact ⟨rfl, rfl, rfl⟩
    · rw [saveTrigger_patterns] at hp'
      by_cases hk : k = (a.pattern_id, a.category)
      · subst hk
        rw [alookup_aupdate_self] at hp'
        cases hp'
        exact record_pattern_id a.now a.pattern_id a.category a.description
          a.solution (runCalls calls) p hp
      · rw [alookup_aupdate_ne hk] at hp'
        rw [hp] at hp'
        cases hp'
        exact ⟨rfl, rfl, rfl⟩

/-- Witness for C2: after the two-call run the rule for ("p", "general")
exists, survives a third call unchanged, and the third call preserves the
pattern's identity fields. -/
theorem evolution_rules_unique_immutable_witness :
    (((runCalls c2Calls).rules.filter
        (fun kv => kv.2.pattern_id == "p" && kv.2.category == "general")).length
      ≤ 1)
    ∧ alookup ("p", "general") (runCalls (c2Calls ++ [c2More])).rules
        = some c2Rule
    ∧ (c2Pattern3.pattern_id = c2Pattern2.pattern_id
        ∧ c2Pattern3.category = c2Pattern2.category
        ∧ c2Pattern3.first_seen = c2Pattern2.first_seen) :=
  ⟨(evolution_rules_unique_immutable c2Calls).1 "p" "general",
   (evolution_rules_unique_immutable c2Calls).2.1 ("p", "general") c2Rule
     (by rfl) [c2More],
   (evolution_rules_unique_immutable c2Calls).2.2 c2More ("p", "general")
     c2Pattern2 c2Pattern3 (by rfl) (by rfl)⟩

/-- C6: `synthesize` is a pure deterministic function of the snapshot: two
patterns agreeing on `(pattern_id, category, last_description,
last_solution, occurrences)` yield byte-identical `rule_text`. -/
theorem synthesize_deterministic (p q : MistakePattern)
    (h1 : p.pattern_id = q.pattern_id) (h2 : p.category = q.category)
    (_h3 : p.last_description = q.last_description)
    (h4 : p.last_solution = q.last_solution)
    (h5 : p.occurrences = q.occurrences) :
    synthesize p = synthesize q := by
  unfold synthesize
  rw [h1, h2, h4, h5]

/-- Witness for C6: two snapshots differing only in timestamps synthesize
the same text. -/
theorem synthesize_deterministic_witness :
    synthesize ⟨"p", "general", 2, 0, 1, "d", "f"⟩
      = synthesize ⟨"p", "general", 2, 5, 9, "d", "f"⟩ :=
  synthesize_deterministic ⟨"p", "general", 2, 0, 1, "d", "f"⟩
    ⟨"p", "general", 2, 5, 9, "d", "f"⟩ rfl rfl rfl rfl rfl

/-- Counterexample to C5: with a loaded configuration whose
`rule_threshold` is 1, a CLI call that omits the threshold behaves as
threshold 2 (no rule on the first occurrence), not as the configured
threshold 1 (which would generate a rule immediately): the code's hard-coded
parameter default wins over the configuration. -/
theorem brainTrackMistake_ignores_config_counterexample :
    (cliTrackMistake ⟨true, 1⟩ 0 "p" "d" "s" "general" emptyState).toOption.map
        (fun x => x.1.rule_generated) = some false
    ∧ (trackMistake 0 "p" "d" "s" "general"
        (⟨true, 1⟩ : EvolutionConfig).rule_threshold emptyState).toOption.map
        (fun x => x.1.rule_generated) = some true := by
  constructor
  · rfl
  · rfl

/-- C5 amended: when a caller omits the threshold argument,
`AthenaBrain.track_mistake` uses the hard-coded parameter default 2
regardless of the loaded configuration; this coincides with the configured
`rule_threshold` exactly when that value is 2 (its default). -/
theorem brainTrackMistake_default_threshold (cfg : EvolutionConfig)
    (now : Nat) (pattern description solution : String)
    (category : Option String) (s : EvolutionState) :
    brainTrackMistake cfg now pattern description solution category none s
      = trackMistake now pattern description solution (category.getD "general")
          2 s
    ∧ (cfg.rule_threshold = 2 →
        brainTrackMistake cfg now pattern description solution category none s
          = trackMistake now pattern description solution
              (category.getD "general") cfg.rule_threshold s) := by
  refine ⟨rfl, fun hcfg => ?_⟩
  rw [hcfg]
  rfl

/-- Witness for the amended C5 at the default configuration. -/
theorem brainTrackMistake_default_threshold_witness :
    brainTrackMistake defaultEvolutionConfig 0 "p" "d" "s" none none
        emptyState
      = trackMistake 0 "p" "d" "s" "general"
          defaultEvolutionConfig.rule_threshold emptyState :=
  (brainTrackMistake_default_threshold defaultEvolutionConfig 0 "p" "d" "s"
    none emptyState).2 rfl

/-- C7: for every environment and input, `store` returns a record that on
success has `success = true`, an id and a message (and no error), and on
failure has `success = false` and an error string; being a total function
into `StoreResult`, it never propagates an exception. -/
theorem store_result_shape (env : MemoryEnv) (content category : String)
    (tags : List String) (metadata : List (String × String)) :
    ((MemoryManager.store env content category tags metadata).success = true
      ∧ (MemoryManager.store env content category tags metadata).id.isSome
          = true
      ∧ (MemoryManager.store env content category tags metadata).message
          = some "Memory stored successfully"
      ∧ (MemoryManager.store env content category tags metadata).error = none)
    ∨ ((MemoryManager.store env content category tags metadata).success
          = false
      ∧ (MemoryManager.store env content category tags metadata).id = none
      ∧ (MemoryManager.store env content category tags metadata).message
          = none
      ∧ (MemoryManager.store env content category tags metadata).error.isSome
          = true) := by
  rcases h : storePipeline env content category tags metadata with e | pointId
  · right
    unfold MemoryManager.store
    rw [h]
    exact ⟨rfl, rfl, rfl, rfl⟩
  · left
    unfold MemoryManager.store
    rw [h]
    exact ⟨rfl, rfl, rfl, rfl⟩

/-- C9: `search` is a total function into a list of fully-populated records:
whenever the internal pipeline raises, the result is the empty list, and
whenever it succeeds, the result is exactly the hits formatted by
`formatResult` (which fills every field, defaulting missing payload
keys). -/
theorem search_result_shape (env : MemoryEnv) (query : String) (limit : Nat)
    (category : Option String) :
    (∀ e : String, searchPipeline env query limit category = .error e →
      MemoryManager.search env query limit category = [])
    ∧ (∀ rs : List ScoredPoint,
        searchPipeline env query limit category = .ok rs →
        MemoryManager.search env query limit category = rs.map formatResult) := by
  constructor
  · intro e he
    unfold MemoryManager.search
    rw [he]
  · intro rs hrs
    unfold MemoryManager.search
    rw [hrs]

/-- Witness for C9: with a raising model the search returns the empty list;
with a successful client search it returns the formatted hit. -/
theorem search_result_shape_witness :
    MemoryManager.search memEnvFail "q" 5 none = []
    ∧ MemoryManager.search memEnvOk "q" 5 none = [memHit].map formatResult :=
  ⟨(search_result_shape memEnvFail "q" 5 none).1 "model failure" rfl,
   (search_result_shape memEnvOk "q" 5 none).2 [memHit] rfl⟩

/-- The value of a two-hex-character slice is at most 255. -/
theorem hexSliceVal_le (ds : List HexDigit) (i : Nat) :
    hexSliceVal ds i ≤ 255 := by
  unfold hexSliceVal
  have hlen : ((ds.drop i).take 2).length ≤ 2 :=
    le_trans (List.length_take_le 2 (ds.drop i)) le_rfl
  rcases hds : (ds.drop i).take 2 with _ | ⟨a, tl⟩
  · simp
  · rcases tl with _ | ⟨b, tl2⟩
    · have ha := a.isLt
      simp only [List.foldl_cons, List.foldl_nil]
      omega
    · have htl2 : tl2 = [] := by
        rw [hds] at hlen
        simp only [List.length_cons] at hlen
        exact List.eq_nil_of_length_eq_zero (by omega)
      subst htl2
      have ha := a.isLt
      have hb := b.isLt
      simp only [List.foldl_cons, List.foldl_nil]
      omega

/-- The fallback embedding of a 32-hex-digit digest, written out: the two
hash-derived values followed by 382 zeros. -/
theorem fallbackEmbedding_eq (ds : List HexDigit) (h : ds.length = 32) :
    fallbackEmbedding ds
      = (hexSliceVal ds 0 : ℚ) / 255 :: (hexSliceVal ds 1 : ℚ) / 255 ::
          List.replicate 382 0 := by
  unfold fallbackEmbedding
  rw [h]
  rfl

/-- C10: when the embedding model is unavailable, the fallback embedding of
a 32-hex-digit MD5 digest has exactly 384 elements — the dimension
`init_collection` uses to create the collection — consisting of two
hash-derived values in [0, 1] followed by zero padding, and it is a
deterministic function of the input string for any fixed digest function. -/
theorem fallbackEmbedding_spec (ds : List HexDigit) (h : ds.length = 32) :
    (fallbackEmbedding ds).length = initCollectionVectorSize
    ∧ (∀ q ∈ (fallbackEmbedding ds).take 2, 0 ≤ q ∧ q ≤ 1)
    ∧ (fallbackEmbedding ds).drop 2 = List.replicate 382 0
    ∧ (∀ (md5hex : String → List HexDigit) (s1 s2 : String), s1 = s2 →
        fallbackEmbedding (md5hex s1) = fallbackEmbedding (md5hex s2)) := by
  rw [fallbackEmbedding_eq ds h]
  refine ⟨?_, ?_, ?_, ?_⟩
  · simp only [List.length_cons, List.length_replicate]
    rfl
  · intro q hq
    have hval : ∀ j : Nat, 0 ≤ (hexSliceVal ds j : ℚ) / 255
        ∧ (hexSliceVal ds j : ℚ) / 255 ≤ 1 := by
      intro j
      constructor
      · positivity
      · rw [div_le_one (by norm_num)]
        exact_mod_cast hexSliceVal_le ds j
    have htake : ((hexSliceVal ds 0 : ℚ) / 255 :: (hexSliceVal ds 1 : ℚ) / 255
        :: List.replicate 382 (0 : ℚ)).take 2
        = [(hexSliceVal ds 0 : ℚ) / 255, (hexSliceVal ds 1 : ℚ) / 255] := rfl
    rw [htake] at hq
    simp only [List.mem_cons, List.not_mem_nil, or_false] at hq
    rcases hq with hq | hq
    · rw [hq]
      exact hval 0
    · rw [hq]
      exact hval 1
  · rfl
  · intro md5hex s1 s2 hs
    rw [hs]

/-- Witness for C10 at the all-zero digest. -/
theorem fallbackEmbedding_spec_witness :
    (fallbackEmbedding (List.replicate 32 0)).length
      = initCollectionVectorSize :=
  (fallbackEmbedding_spec (List.replicate 32 0) (by simp)).1

theorem styleLookup_styleUpdate_self (k : String) (v : ℚ)
    (l : List (String × ℚ)) :
    styleLookup k (styleUpdate k v l) = some v := by
  induction l with
  | nil => simp [styleLookup, styleUpdate]
  | cons kv rest ih =>
    by_cases h : kv.1 = k
    · simp [styleLookup, styleUpdate, h]
    · simp [styleLookup, styleUpdate, h, ih]

theorem styleLookup_styleUpdate_ne {k k' : String} (hne : k' ≠ k) (v : ℚ)
    (l : List (String × ℚ)) :
    styleLookup k' (styleUpdate k v l) = styleLookup k' l := by
  have hkk' : ¬ (k = k') := fun h => hne h.symm
  induction l with
  | nil => simp [styleLookup, styleUpdate, hkk']
  | cons kv rest ih =>
    by_cases h : kv.1 = k
    · have h2 : ¬ (kv.1 = k') := fun hh => hkk' (h.symm.trans hh)
      simp [styleLookup, styleUpdate, h, h2, hkk']
    · simp [styleLookup, styleUpdate, h, ih]

theorem styleLookup_learnStep_self (lr : ℚ) (st : List (String × ℚ))
    (kv : String × ℚ) :
    styleLookup kv.1 (learnStep lr st kv)
      = some (styleBlend lr (styleLookup kv.1 st) kv.2) := by
  unfold learnStep styleBlend
  rcases h : styleLookup kv.1 st with _ | old <;>
    simp [h, styleLookup_styleUpdate_self]

theorem styleLookup_learnStep_ne (lr : ℚ) (st : List (String × ℚ))
    (kv : String × ℚ) {k : String} (hk : k ≠ kv.1) :
    styleLookup k (learnStep lr st kv) = styleLookup k st := by
  unfold learnStep
  rcases h : styleLookup kv.1 st with _ | old <;>
    simp [styleLookup_styleUpdate_ne hk]

/-- Folding the merge loop: keys outside `style_data` keep their value, keys
of `style_data` end at the blend of their prior value. -/
theorem learn_style_fold (lr : ℚ) (sd : List (String × ℚ)) :
    ∀ st : List (String × ℚ), (sd.map Prod.fst).Nodup →
      (∀ k : String, k ∉ sd.map Prod.fst →
        styleLookup k (learn_style lr st sd) = styleLookup k st)
      ∧ (∀ (k : String) (v : ℚ), (k, v) ∈ sd →
        styleLookup k (learn_style lr st sd)
          = some (styleBlend lr (styleLookup k st) v)) := by
  induction sd with
  | nil =>
    intro st _
    exact ⟨fun k _ => rfl, fun k v hkv => absurd hkv (List.not_mem_nil _)⟩
  | cons kv rest ih =>
    intro st hnd
    simp only [List.map_cons, List.nodup_cons] at hnd
    have hstep : learn_style lr st (kv :: rest)
        = learn_style lr (learnStep lr st kv) rest := rfl
    constructor
    · intro k hk
      simp only [List.map_cons, List.mem_cons, not_or] at hk
      rw [hstep, (ih (learnStep lr st kv) hnd.2).1 k hk.2,
        styleLookup_learnStep_ne lr st kv hk.1]
    · intro k v hkv
      rcases List.mem_cons.mp hkv with hkv | hkv
      · have hk : k = kv.1 := congrArg Prod.fst hkv
        have hv : v = kv.2 := congrArg Prod.snd hkv
        subst hk hv
        rw [hstep, (ih (learnStep lr st kv) hnd.2).1 kv.1 hnd.1,
          styleLookup_learnStep_self]
      · have hk : k ≠ kv.1 := by
          intro hc
          apply hnd.1
          rw [← hc]
          exact List.mem_map_of_mem Prod.fst hkv
        rw [hstep, (ih (learnStep lr st kv) hnd.2).2 k v hkv,
          styleLookup_learnStep_ne lr st kv hk]

/-- C8: `learn_style` replaces the value of each style key already present
with `old * (1 - learning_rate) + new * learning_rate`, stores a new key's
value unchanged, and leaves keys not mentioned in `style_data`
untouched. -/
theorem learn_style_merge (lr : ℚ) (style style_data : List (String × ℚ))
    (hnd : (style_data.map Prod.fst).Nodup) :
    (∀ (k : String) (v old : ℚ), (k, v) ∈ style_data →
      styleLookup k style = some old →
      styleLookup k (learn_style lr style style_data)
        = some (old * (1 - lr) + v * lr))
    ∧ (∀ (k : String) (v : ℚ), (k, v) ∈ style_data →
      styleLookup k style = none →
      styleLookup k (learn_style lr style style_data) = some v)
    ∧ (∀ k : String, k ∉ style_data.map Prod.fst →
      styleLookup k (learn_style lr style style_data)
        = styleLookup k style) := by
  obtain ⟨hout, hin⟩ := learn_style_fold lr style_data style hnd
  refine ⟨?_, ?_, hout⟩
  · intro k v old hkv hold
    rw [hin k v hkv, hold]
    rfl
  · intro k v hkv hnone
    rw [hin k v hkv, hnone]
    rfl

/-- Witness for C8 at a concrete profile and style payload with the default
learning rate 0.1: the present key is blended, the new key stored, the
unmentioned key untouched. -/
theorem learn_style_merge_witness :
    styleLookup "indent"
        (learn_style (1 / 10) [("indent", 4), ("quote", 1)]
          [("indent", 8), ("width", 100)])
      = some (4 * (1 - 1 / 10) + 8 * (1 / 10))
    ∧ styleLookup "width"
        (learn_style (1 / 10) [("indent", 4), ("quote", 1)]
          [("indent", 8), ("width", 100)])
      = some 100
    ∧ styleLookup "quote"
        (learn_style (1 / 10) [("indent", 4), ("quote", 1)]
          [("indent", 8), ("width", 100)])
      = styleLookup "quote" [("indent", 4), ("quote", 1)] := by
  have h := learn_style_merge (1 / 10) [("indent", 4), ("quote", 1)]
    [("indent", 8), ("width", 100)] (by decide)
  exact ⟨h.1 "indent" 8 4 (by decide) (by rfl),
    h.2.1 "width" 100 (by decide) (by rfl),
    h.2.2 "quote" (by decide)⟩

end AthenaBrain
